import Mathlib

/-!
Verification of the wow-recorder recording-engine orchestrator.

This file gives a shallow embedding of the orchestrator code
(`src/main/obsRecorder.ts` and its module/class variants) into Lean and
proves the specified properties about it.  JavaScript values that matter
for the embedded functions are modelled explicitly: `NaN`/`undefined`
appear as `Option.none`, 32-bit bitwise operator semantics as explicit
wrapping on `Int`/`Nat`, and the asynchronous signal queue as a list of
pending signals (an absent next item models the 5-second timeout firing
first).
-/

/-- A width/height pair, mirroring Electron's `Size` as used by the code. -/
structure Size where
  width : Int
  height : Int
deriving DecidableEq, Repr

/-- `String.split('x')` on a character list: JavaScript's split with a
single-character separator.  `"".split('x') = [""]` and separators at the
ends produce empty fragments, exactly as in JS. -/
def splitOnChar (c : Char) : List Char → List (List Char)
  | [] => [[]]
  | a :: rest =>
    let r := splitOnChar c rest
    if a = c then [] :: r
    else
      match r with
      | [] => [[a]]
      | g :: gs => (a :: g) :: gs

/-- Numeric value of a run of decimal digit characters. -/
def digitsVal (ds : List Char) : Nat :=
  ds.foldl (fun acc c => acc * 10 + (c.toNat - 48)) 0

/-- Models JavaScript `parseInt(s, 10)`: an optional sign followed by the
longest leading run of decimal digits; `NaN` (here `none`) if that run is
empty.  (Leading-whitespace trimming is omitted; resolution strings carry
none.) -/
def parseIntChars (cs : List Char) : Option Int :=
  match cs with
  | '-' :: rest =>
    let ds := rest.takeWhile Char.isDigit
    if ds.isEmpty then none else some (-(digitsVal ds : Int))
  | '+' :: rest =>
    let ds := rest.takeWhile Char.isDigit
    if ds.isEmpty then none else some ((digitsVal ds : Int))
  | _ =>
    let ds := cs.takeWhile Char.isDigit
    if ds.isEmpty then none else some ((digitsVal ds : Nat) : Int)

/-- The parsed `(width, height)` components of a candidate string
`v.split('x').map(v => parseInt(v, 10))`; a missing fragment is JS
`undefined` and a failed parse is `NaN`, both modelled as `none`. -/
def parseCandidate (v : String) : Option Int × Option Int :=
  let nums := (splitOnChar 'x' v.toList).map parseIntChars
  (nums.getD 0 none, nums.getD 1 none)

/-- The per-candidate sort value of `getClosestResolution`:
`Math.abs(((target.width - v[0]) * 2) + ((target.height - v[1]) * 4))`.
Any `NaN`/`undefined` component poisons the result (`none`). -/
def resolutionScore (target : Size) (v : String) : Option Int :=
  match parseCandidate v with
  | (some w, some h) => some |(target.width - w) * 2 + (target.height - h) * 4|
  | _ => none

/-- `Math.min(...indexArray)`: `none` both for the empty spread (where JS
yields `Infinity`, a value no integer entry equals) and when any entry is
`NaN` (which makes `Math.min` return `NaN`); in either case the subsequent
`indexOf` in `getClosestResolution` finds no index. -/
def minNaN (x y : Option Int) : Option Int :=
  match x, y with
  | some a, some b => some (min a b)
  | _, _ => none

def listMinNaN : List (Option Int) → Option Int
  | [] => none
  | [x] => x
  | x :: y :: ys => minNaN x (listMinNaN (y :: ys))

/-- First index of `x` in `l` (JavaScript `Array.prototype.indexOf`,
which uses strict equality).  Looking up `none` (`NaN`) never succeeds,
since `NaN === NaN` is false; "not found" is rendered as `l.length` so
that a subsequent list lookup yields `none` (JS `array[-1] = undefined`). -/
def jsIndexOfAux (p : Int) : List (Option Int) → Nat
  | [] => 0
  | x :: xs => if x = some p then 0 else jsIndexOfAux p xs + 1

def jsIndexOf (l : List (Option Int)) (x : Option Int) : Nat :=
  match x with
  | none => l.length
  | some v => jsIndexOfAux v l

/-- `getClosestResolution(resolutions, target)` from `obsRecorder.ts` /
`helpers.ts`: build the array of weighted absolute differences, take its
`Math.min`, and return the candidate at the first index attaining it.
An empty candidate list (or an unparseable candidate, which poisons
`Math.min` with `NaN`) makes the final lookup `resolutions[-1]`, i.e. JS
`undefined`, modelled as `none`. -/
def getClosestResolution (resolutions : List String) (target : Size) : Option String :=
  match listMinNaN (resolutions.map (resolutionScore target)) with
  | none => none
  | some minValue =>
    resolutions.get? (jsIndexOf (resolutions.map (resolutionScore target)) (some minValue))

/-! ## Signal channel protocol (`assertNextSignal`, `start`, `stop`) -/

/-- The `{ type, signal }` record pushed by the engine's output-signal
callback into the wait queue. -/
structure SignalInfo where
  type : String
  signal : String
deriving DecidableEq, Repr

/-- The failures the orchestrator's lifecycle calls can raise.  The two
`unexpected` variants carry what the code logs: the received signal and
the expected value. -/
inductive ObsError where
  | signalTimeout (expected : String)
  | unexpectedSignalType (got expected : String)
  | unexpectedSignalValue (got expected : String)
  | notInitialized
deriving DecidableEq, Repr

deriving instance DecidableEq for Except

/-- `assertNextSignal(value)`: race the queue's next item against the
5-second timer, then check `type === "recording"` and `signal === value`.
The queue of already-delivered items is passed explicitly; an empty queue
models the timer winning the race (no item arrived within the window). -/
def assertNextSignal (value : String) (queue : List SignalInfo) :
    Except ObsError (List SignalInfo) :=
  match queue with
  | [] => Except.error (ObsError.signalTimeout value)
  | signalInfo :: rest =>
    if signalInfo.type ≠ "recording" then
      Except.error (ObsError.unexpectedSignalType signalInfo.signal value)
    else if signalInfo.signal ≠ value then
      Except.error (ObsError.unexpectedSignalValue signalInfo.signal value)
    else
      Except.ok rest

/-- `start()`: throws `"OBS not initialised"` unless the connection was
established, otherwise issues the native start command and awaits the
`start` signal. -/
def startCall (obsInitialized : Bool) (queue : List SignalInfo) :
    Except ObsError (List SignalInfo) :=
  if !obsInitialized then Except.error ObsError.notInitialized
  else assertNextSignal "start" queue

/-- `stop()`: issue the native stop command, then await `stopping`,
`stop`, `wrote` in that exact order. -/
def stopCall (queue : List SignalInfo) : Except ObsError (List SignalInfo) :=
  ((assertNextSignal "stopping" queue).bind (assertNextSignal "stop")).bind
    (assertNextSignal "wrote")

/-! ## JavaScript 32-bit bitwise operator semantics -/

/-- `ToUint32`: reduce an integer to its unsigned 32-bit residue (the
first step JS bitwise operators apply to each operand). -/
def toUInt32 (n : Int) : Nat := (n % ((2 : Int) ^ 32)).toNat

/-- Reinterpret an unsigned 32-bit residue as a signed 32-bit result,
as JS bitwise operators do. -/
def toInt32 (n : Int) : Int :=
  let u := toUInt32 n
  if u < 2 ^ 31 then (u : Int) else (u : Int) - 2 ^ 32

/-- JavaScript `a << b`: the shift count is taken modulo 32 and the
result wraps to signed 32 bits. -/
def jsShl (a b : Int) : Int := toInt32 ((toUInt32 a <<< (toUInt32 b % 32) : Nat) : Int)

/-- JavaScript `a | b` on 32-bit operands. -/
def jsOr (a b : Int) : Int := toInt32 ((Nat.lor (toUInt32 a) (toUInt32 b) : Nat) : Int)

/-! ## Audio track allocator (`setupSources`) and `clearSources` -/

/-- An enumerated audio device. -/
structure AudioDevice where
  id : String
  name : String
deriving DecidableEq, Repr

/-- The fields of version the allocator sets on each created
`wasapi_*_capture` input before registering it on its output track. -/
structure AudioSource where
  kind : String
  deviceId : String
  audioMixers : Int
  muted : Bool
deriving DecidableEq, Repr

/-- The track bitmask the code computes for the source on output track
`currentTrack`: `1 | (1 << currentTrack-1)` with JS 32-bit semantics. -/
def slotMask (currentTrack : Nat) : Int := jsOr 1 (jsShl 1 ((currentTrack : Int) - 1))

/-- One `forEach` loop of `setupSources`: walk the device list, creating
a capture source per device at consecutive track numbers starting from
`startTrack`.  Returns the `(track, device, source)` assignments in order
together with the final value of `currentTrack`. -/
def processDevices (kind selectedId : String) (startTrack : Nat) :
    List AudioDevice → List (Nat × AudioDevice × AudioSource) × Nat
  | [] => ([], startTrack)
  | device :: rest =>
    let source : AudioSource :=
      { kind := kind
        deviceId := device.id
        audioMixers := slotMask startTrack
        muted := (selectedId == "none") || (selectedId != "all" && device.id != selectedId) }
    let (more, finalTrack) := processDevices kind selectedId (startTrack + 1) rest
    ((startTrack, device, source) :: more, finalTrack)

/-- `parseInt(ds, 2)` on a list of binary digit characters. -/
def parseBinaryDigits (cs : List Char) : Nat :=
  cs.foldl (fun acc c => acc * 2 + (c.toNat - 48)) 0

/-- `parseInt('1'.repeat(m), 2)`, the "recorded tracks" bitmask for `m`
used tracks.  (JS numbers are doubles, so the JS value is exact only for
`m ≤ 53`; every configuration this code can meet is far below that.) -/
def onesLiteral (m : Nat) : Nat := parseBinaryDigits (List.replicate m '1')

/-- What a global output-track slot can hold: the scene registered at
slot 1, or an audio capture source. -/
inductive SlotContent where
  | scene
  | audio
deriving DecidableEq, Repr

/-- The engine-global state touched by `setupSources`/`clearSources`:
the output-track table (`osn.Global.setOutputSource`), the per-track
name settings, and the `RecTracks` setting. -/
structure ObsGlobal where
  slots : Nat → Option SlotContent
  trackNames : Nat → String
  recTracks : Nat

/-- Point update of the output-track table. -/
def setSlot (tbl : Nat → Option SlotContent) (i : Nat) (v : Option SlotContent) :
    Nat → Option SlotContent :=
  fun j => if j = i then v else tbl j

/-- Point update of the track-name settings. -/
def setName (names : Nat → String) (i : Nat) (v : String) : Nat → String :=
  fun j => if j = i then v else names j

/-- The body of the `clearSources` loop at one index: if the slot holds a
source, blank its track name, detach it (`setOutputSource(index, null)`)
and release it. -/
def clearSlotStep (acc : ObsGlobal) (index : Nat) : ObsGlobal :=
  match acc.slots index with
  | some _ =>
    { acc with
      trackNames := setName acc.trackNames index ""
      slots := setSlot acc.slots index none }
  | none => acc

/-- `clearSources()`: `for (let index = 1; index < 64; index++)` — the
loop visits indices 1 through 63 — then `RecTracks` is zeroed. -/
def clearSources (g : ObsGlobal) : ObsGlobal :=
  let g1 := (List.range' 1 63).foldl clearSlotStep g
  { g1 with recTracks := 0 }

/-- `osn.Global.setOutputSource(currentTrack, source)` plus the track
name written just before it, for one allocated audio source. -/
def audioRegisterStep (acc : ObsGlobal) (p : Nat × AudioDevice × AudioSource) : ObsGlobal :=
  { acc with
    slots := setSlot acc.slots p.1 (some SlotContent.audio)
    trackNames := setName acc.trackNames p.1 p.2.1.name }

/-- `setupSources(scene, audioInputDeviceId, audioOutputDeviceId)`:
clear all sources, register the scene at output slot 1 and name track 1,
then allocate one capture source per enumerated input device followed by
one per output device at consecutive tracks from 2, and finally set
`RecTracks` to `parseInt('1'.repeat(currentTrack-1), 2)`.  Returns the
resulting global state together with the ordered track assignments.
(The engine-side `source.release()` calls transfer ownership to the
output table and have no observable effect on the modelled state.) -/
def setupSources (g : ObsGlobal) (inputs outputs : List AudioDevice)
    (audioInputDeviceId audioOutputDeviceId : String) :
    ObsGlobal × List (Nat × AudioDevice × AudioSource) :=
  let g1 := clearSources g
  let g2 := { g1 with
    slots := setSlot g1.slots 1 (some SlotContent.scene)
    trackNames := setName g1.trackNames 1 "Mixed: all sources" }
  let (inAssign, t1) := processDevices "wasapi_input_capture" audioInputDeviceId 2 inputs
  let (outAssign, t2) := processDevices "wasapi_output_capture" audioOutputDeviceId t1 outputs
  let assigns := inAssign ++ outAssign
  let g3 := assigns.foldl audioRegisterStep g2
  ({ g3 with recTracks := onesLiteral (t2 - 1) }, assigns)

/-- Number of audio capture sources registered across the 64 output
slots (slots 1 through 64). -/
def countAudioSources (slots : Nat → Option SlotContent) : Nat :=
  ((List.range' 1 64).map slots).countP (fun e => e == some SlotContent.audio)

/-! ## Engine settings bridge (`setSetting`, `getAvailableValues`) -/

/-- The JavaScript values that flow through the settings tree.  Only the
shapes this code exercises are modelled; in particular numbers are
integral (every numeric setting the recorder writes is an integer). -/
inductive JsVal where
  | undef
  | null
  | str (s : String)
  | num (n : Int)
  | bool (b : Bool)
deriving DecidableEq, Repr

/-- ECMAScript `ToNumber` on the modelled values, with `none` for `NaN`.
A string converts when, after trimming, it is empty (`0`) or a signed
run of decimal digits; other strings give `NaN`. -/
def jsToNumber : JsVal → Option Int
  | JsVal.undef => none
  | JsVal.null => some 0
  | JsVal.num n => some n
  | JsVal.bool b => some (if b then 1 else 0)
  | JsVal.str s =>
    let cs := s.trim.toList
    if cs.isEmpty then some 0
    else
      match cs with
      | '-' :: ds => if ds ≠ [] ∧ ds.all Char.isDigit then some (-(digitsVal ds : Int)) else none
      | '+' :: ds => if ds ≠ [] ∧ ds.all Char.isDigit then some ((digitsVal ds : Int)) else none
      | ds => if ds.all Char.isDigit then some ((digitsVal ds : Nat) : Int) else none

/-- JavaScript loose equality `==` on the modelled values: `undefined`
and `null` are loosely equal to each other and to nothing else;
same-type comparisons are structural; mixed comparisons go through
`ToNumber` (a `NaN` on either side makes the comparison false). -/
def jsLooseEq : JsVal → JsVal → Bool
  | JsVal.undef, JsVal.undef => true
  | JsVal.undef, JsVal.null => true
  | JsVal.null, JsVal.undef => true
  | JsVal.null, JsVal.null => true
  | JsVal.undef, _ => false
  | _, JsVal.undef => false
  | JsVal.null, _ => false
  | _, JsVal.null => false
  | JsVal.str a, JsVal.str b => a == b
  | JsVal.num a, JsVal.num b => a == b
  | a, b =>
    match jsToNumber a, jsToNumber b with
    | some x, some y => x == y
    | _, _ => false

/-- One parameter of the engine settings tree: its name, current value,
and its list of available values.  Each available value arrives as a JS
object from which the code takes `Object.values(value)[0]`, so it is
modelled as an association list of property names to values in insertion
order. -/
structure SettingsParameter where
  name : String
  currentValue : JsVal
  values : List (List (String × JsVal))
deriving DecidableEq, Repr

/-- One subcategory of a settings category. -/
structure SettingsSubCategory where
  nameSubCategory : String
  parameters : List SettingsParameter
deriving DecidableEq, Repr

/-- The result of a `setSetting` call: the settings container after the
loop, and whether `OBS_settings_saveSettings` was invoked. -/
structure SetSettingResult where
  settings : List SettingsSubCategory
  saved : Bool
deriving DecidableEq, Repr

/-- `setSetting(category, parameter, value)` on the `data` of the given
category: scan every parameter of every subcategory, recording the
previous value of each name match (`oldValue`, which stays `undefined`
when nothing matches) and overwriting the match with `value`; then save
the container if and only if `value != oldValue` (JS loose inequality). -/
def setSetting (settings : List SettingsSubCategory) (parameter : String) (value : JsVal) :
    SetSettingResult :=
  let oldValue := settings.foldl (fun acc subCategory =>
    subCategory.parameters.foldl (fun a param =>
      if param.name = parameter then param.currentValue else a) acc) JsVal.undef
  let updated := settings.map (fun subCategory =>
    { subCategory with parameters := subCategory.parameters.map (fun param =>
        if param.name = parameter then { param with currentValue := value } else param) })
  { settings := updated, saved := !(jsLooseEq value oldValue) }

/-- `Object.values(value)[0]` for an available-value object: the first
property value, or `undefined` for an object without properties. -/
def firstPropertyValue (value : List (String × JsVal)) : JsVal :=
  (value.map Prod.snd).getD 0 JsVal.undef

/-- `getAvailableValues(category, subcategory, parameter)` as in the
module-level recorder (`part_002`): `none` models the bare `return;`
(JS `undefined`) taken, with a logged warning, when the category data is
falsy or the subcategory or parameter is not found; otherwise the
ordered list of the parameter's permitted values. -/
def getAvailableValues (categoryData : Option (List SettingsSubCategory))
    (subcategory parameter : String) : Option (List JsVal) :=
  match categoryData with
  | none => none
  | some categorySettings =>
    match categorySettings.find? (fun sub => sub.nameSubCategory == subcategory) with
    | none => none
    | some subcategorySettings =>
      match subcategorySettings.parameters.find? (fun param => param.name == parameter) with
      | none => none
      | some parameterSettings => some (parameterSettings.values.map firstPropertyValue)

/-- The class variant of `getAvailableValues` (the static method in
`part_000`), which returns an empty array `[]` instead of `undefined`
in each of the three not-found cases. -/
def getAvailableValuesClass (categoryData : Option (List SettingsSubCategory))
    (subcategory parameter : String) : List JsVal :=
  match categoryData with
  | none => []
  | some categorySettings =>
    match categorySettings.find? (fun sub => sub.nameSubCategory == subcategory) with
    | none => []
    | some subcategorySettings =>
      match subcategorySettings.parameters.find? (fun param => param.name == parameter) with
      | none => []
      | some parameterSettings => parameterSettings.values.map firstPropertyValue

/-! ## Lemmas about the resolution matcher -/

theorem listMinNaN_spec (l : List (Option Int)) (hne : l ≠ [])
    (hsome : ∀ x ∈ l, x.isSome = true) :
    ∃ m, listMinNaN l = some m ∧ some m ∈ l ∧ ∀ v, some v ∈ l → m ≤ v := by
  induction l with
  | nil => exact absurd rfl hne
  | cons x xs ih =>
    obtain ⟨a, rfl⟩ := Option.isSome_iff_exists.mp (hsome x (List.mem_cons_self x xs))
    cases xs with
    | nil =>
      refine ⟨a, rfl, List.mem_cons_self _ _, ?_⟩
      intro v hv
      rcases List.mem_cons.mp hv with h | h
      · have := Option.some.inj h
        omega
      · simp at h
    | cons y ys =>
      obtain ⟨m', hm', hmem', hbound'⟩ :=
        ih (by simp) (fun z hz => hsome z (List.mem_cons_of_mem _ hz))
      refine ⟨min a m', ?_, ?_, ?_⟩
      · show listMinNaN (some a :: y :: ys) = some (min a m')
        rw [listMinNaN, hm']
        rfl
      · rcases le_total a m' with h | h
        · rw [min_eq_left h]; exact List.mem_cons_self _ _
        · rw [min_eq_right h]; exact List.mem_cons_of_mem _ hmem'
      · intro v hv
        rcases List.mem_cons.mp hv with h | h
        · have := Option.some.inj h
          have h2 := min_le_left a m'
          omega
        · exact le_trans (min_le_right a m') (hbound' v h)

theorem jsIndexOfAux_spec (m : Int) (l : List (Option Int)) (hm : some m ∈ l) :
    l.get? (jsIndexOfAux m l) = some (some m) ∧
    ∀ j, j < jsIndexOfAux m l → l.get? j ≠ some (some m) := by
  induction l with
  | nil => simp at hm
  | cons x xs ih =>
    by_cases hx : x = some m
    · subst hx
      refine ⟨by simp [jsIndexOfAux], ?_⟩
      intro j hj
      simp [jsIndexOfAux] at hj
    · have hm' : some m ∈ xs := by
        rcases List.mem_cons.mp hm with h | h
        · exact absurd h.symm hx
        · exact h
      obtain ⟨h1, h2⟩ := ih hm'
      refine ⟨?_, ?_⟩
      · simpa [jsIndexOfAux, hx] using h1
      · intro j hj
        rw [jsIndexOfAux, if_neg hx] at hj
        cases j with
        | zero =>
          simp only [List.get?_cons_zero]
          intro hcon
          exact hx (Option.some_injective _ hcon)
        | succ j' =>
          simp only [List.get?_cons_succ]
          exact h2 j' (Nat.lt_of_succ_lt_succ hj)

/-- C1: for every non-empty candidate list whose entries all parse, the
matcher returns the candidate minimizing `|2(tw-w) + 4(th-h)|`, and among
candidates attaining the minimum it returns the earliest in the list. -/
theorem C1_getClosestResolution_earliest_min
    (resolutions : List String) (target : Size)
    (hne : resolutions ≠ [])
    (hparse : ∀ s ∈ resolutions, (resolutionScore target s).isSome = true) :
    ∃ i c d, resolutions.get? i = some c ∧
      getClosestResolution resolutions target = some c ∧
      resolutionScore target c = some d ∧
      (∀ s ∈ resolutions, ∀ e, resolutionScore target s = some e → d ≤ e) ∧
      (∀ j c2 e, j < i → resolutions.get? j = some c2 →
        resolutionScore target c2 = some e → d < e) := by
  have hne' : resolutions.map (resolutionScore target) ≠ [] := by
    simpa using hne
  have hsome : ∀ x ∈ resolutions.map (resolutionScore target), x.isSome = true := by
    intro x hx
    obtain ⟨s, hs, rfl⟩ := List.mem_map.mp hx
    exact hparse s hs
  obtain ⟨m, hm, hmem, hbound⟩ :=
    listMinNaN_spec (resolutions.map (resolutionScore target)) hne' hsome
  obtain ⟨hget, hfirst⟩ := jsIndexOfAux_spec m (resolutions.map (resolutionScore target)) hmem
  rw [List.get?_map] at hget
  obtain ⟨c, hc, hfc⟩ : ∃ c,
      resolutions.get? (jsIndexOfAux m (resolutions.map (resolutionScore target))) = some c ∧
      resolutionScore target c = some m := by
    cases hcg : resolutions.get? (jsIndexOfAux m (resolutions.map (resolutionScore target))) with
    | none => rw [hcg] at hget; simp at hget
    | some c =>
      rw [hcg, Option.map_some'] at hget
      exact ⟨c, rfl, Option.some.inj hget⟩
  refine ⟨_, c, m, hc, ?_, hfc, ?_, ?_⟩
  · show getClosestResolution resolutions target = some c
    unfold getClosestResolution
    rw [hm]
    exact hc
  · intro s hs e he
    exact hbound e (he ▸ List.mem_map_of_mem (resolutionScore target) hs)
  · intro j c2 e hj hgetj hfe
    have hja : (resolutions.map (resolutionScore target)).get? j = some (some e) := by
      rw [List.get?_map, hgetj, Option.map_some', hfe]
    have hnem : e ≠ m := by
      intro hcon
      exact hfirst j hj (by rw [hja, hcon])
    have hle : m ≤ e := hbound e (List.get?_mem hja)
    omega

/-- C1 witness: the spec's concrete examples, and the main theorem
instantiated at the first of them. -/
theorem C1_witness :
    getClosestResolution ["1280x720", "1920x1080", "2560x1440"] ⟨1920, 1080⟩
      = some "1920x1080" ∧
    getClosestResolution ["1280x720", "1920x1080", "2560x1440"] ⟨1921, 1079⟩
      = some "1920x1080" ∧
    (∃ i c d, (["1280x720", "1920x1080", "2560x1440"] : List String).get? i = some c ∧
      getClosestResolution ["1280x720", "1920x1080", "2560x1440"] ⟨1920, 1080⟩ = some c ∧
      resolutionScore ⟨1920, 1080⟩ c = some d ∧
      (∀ s ∈ (["1280x720", "1920x1080", "2560x1440"] : List String),
        ∀ e, resolutionScore ⟨1920, 1080⟩ s = some e → d ≤ e) ∧
      (∀ j c2 e, j < i → (["1280x720", "1920x1080", "2560x1440"] : List String).get? j = some c2 →
        resolutionScore ⟨1920, 1080⟩ c2 = some e → d < e)) :=
  ⟨by decide, by decide,
    C1_getClosestResolution_earliest_min ["1280x720", "1920x1080", "2560x1440"] ⟨1920, 1080⟩
      (by decide) (by decide)⟩

/-- C9: the metric folds the signed weighted differences into one
absolute value, so a candidate that is not the target can score 0 and,
when it precedes the exact match, wins the first-occurrence tie-break:
candidates `1922x1079, 1920x1080` with target 1920x1080 give `1922x1079`. -/
theorem C9_zero_score_shadows_exact_match :
    ∃ (target : Size) (resolutions : List String) (exactCand other : String),
      exactCand ∈ resolutions ∧
      parseCandidate exactCand = (some target.width, some target.height) ∧
      parseCandidate other = (some (target.width + 2), some (target.height - 1)) ∧
      resolutionScore target other = some 0 ∧
      getClosestResolution resolutions target = some other ∧
      other ≠ exactCand :=
  ⟨⟨1920, 1080⟩, ["1922x1079", "1920x1080"], "1920x1080", "1922x1079",
    by decide, by decide, by decide, by decide, by decide, by decide⟩

/-- C5: on the empty candidate list the code raises nothing.
`Math.min()` of an empty spread is `Infinity`, `indexOf` then yields
`-1`, and `resolutions[-1]` is JS `undefined` (`none`) — silently passed
on to `setSetting` — even though the doc comment above
`setOBSVideoResolution` promises a throw when no match exists. -/
theorem C5_empty_candidates_returns_undefined (target : Size) :
    getClosestResolution [] target = none := rfl

/-! ## Lemmas about the signal protocol -/

theorem assertNextSignal_ok_iff (value : String) (queue q : List SignalInfo) :
    assertNextSignal value queue = Except.ok q ↔
    ∃ s : SignalInfo, queue = s :: q ∧ s.type = "recording" ∧ s.signal = value := by
  cases queue with
  | nil => simp [assertNextSignal]
  | cons s rest =>
    constructor
    · intro h
      simp only [assertNextSignal] at h
      by_cases h1 : s.type = "recording"
      · by_cases h2 : s.signal = value
        · rw [if_neg (fun hc => hc h1), if_neg (fun hc => hc h2)] at h
          exact ⟨s, by rw [Except.ok.inj h], h1, h2⟩
        · rw [if_neg (fun hc => hc h1), if_pos h2] at h
          exact absurd h (by simp)
      · rw [if_pos h1] at h
        exact absurd h (by simp)
    · rintro ⟨s', hcons, ht', hs'⟩
      obtain ⟨rfl, rfl⟩ := List.cons.inj hcons
      simp only [assertNextSignal]
      rw [if_neg (fun hc => hc ht'), if_neg (fun hc => hc hs')]

/-- C3: `stop()` succeeds exactly when the next three queue items are
`recording/stopping`, `recording/stop`, `recording/wrote` in this order
(each within its own window — an exhausted queue models a timeout); in
particular an engine emitting `stop` before `stopping` fails the call. -/
theorem C3_stop_requires_exact_sequence :
    (∀ queue : List SignalInfo,
      (∃ q, stopCall queue = Except.ok q) ↔
      (∃ rest, queue = ⟨"recording", "stopping"⟩ :: ⟨"recording", "stop"⟩ ::
        ⟨"recording", "wrote"⟩ :: rest)) ∧
    stopCall [⟨"recording", "stop"⟩, ⟨"recording", "stopping"⟩, ⟨"recording", "wrote"⟩]
      = Except.error (ObsError.unexpectedSignalValue "stop" "stopping") := by
  refine ⟨?_, by decide⟩
  intro queue
  constructor
  · rintro ⟨q, hq⟩
    unfold stopCall at hq
    cases h1 : assertNextSignal "stopping" queue with
    | error e => rw [h1] at hq; simp [Except.bind] at hq
    | ok q1 =>
      rw [h1] at hq
      simp only [Except.bind] at hq
      cases h2 : assertNextSignal "stop" q1 with
      | error e => rw [h2] at hq; simp [Except.bind] at hq
      | ok q2 =>
        rw [h2] at hq
        simp only [Except.bind] at hq
        obtain ⟨s1, hq1, ht1, hs1⟩ := (assertNextSignal_ok_iff _ _ _).mp h1
        obtain ⟨s2, hq2, ht2, hs2⟩ := (assertNextSignal_ok_iff _ _ _).mp h2
        obtain ⟨s3, hq3, ht3, hs3⟩ := (assertNextSignal_ok_iff _ _ _).mp hq
        have e1 : s1 = ⟨"recording", "stopping"⟩ := by cases s1; simp_all
        have e2 : s2 = ⟨"recording", "stop"⟩ := by cases s2; simp_all
        have e3 : s3 = ⟨"recording", "wrote"⟩ := by cases s3; simp_all
        exact ⟨q, by rw [hq1, hq2, hq3, e1, e2, e3]⟩
  · rintro ⟨rest, rfl⟩
    exact ⟨rest, rfl⟩

/-- C4: `start()` fails with the not-initialised error whenever the
connection was never established; otherwise it issues the native start
command and succeeds exactly when a `recording`-typed item carrying
signal `start` is next — an absent item (timeout window elapsing) or a
mismatched item fails the call rather than hanging. -/
theorem C4_start_requires_init_and_signal (obsInitialized : Bool) (queue : List SignalInfo) :
    (obsInitialized = false →
      startCall obsInitialized queue = Except.error ObsError.notInitialized) ∧
    (obsInitialized = true →
      startCall obsInitialized [] = Except.error (ObsError.signalTimeout "start")) ∧
    (obsInitialized = true →
      ((∃ q, startCall obsInitialized queue = Except.ok q) ↔
        ∃ (s : SignalInfo) (rest : List SignalInfo), queue = s :: rest ∧
          s.type = "recording" ∧ s.signal = "start")) := by
  refine ⟨?_, ?_, ?_⟩
  · rintro rfl; rfl
  · rintro rfl; rfl
  · rintro rfl
    have hred : startCall true queue = assertNextSignal "start" queue := rfl
    rw [hred]
    constructor
    · rintro ⟨q, hq⟩
      obtain ⟨s, hcons, ht, hs⟩ := (assertNextSignal_ok_iff _ _ _).mp hq
      exact ⟨s, q, hcons, ht, hs⟩
    · rintro ⟨s, rest, rfl, ht, hs⟩
      exact ⟨rest, (assertNextSignal_ok_iff _ _ _).mpr ⟨s, rfl, ht, hs⟩⟩

/-- C4 witness: the theorem applied at concrete inputs covering the
not-initialised case, the timeout case, and a successful start. -/
theorem C4_witness :
    startCall false [⟨"recording", "start"⟩] = Except.error ObsError.notInitialized ∧
    startCall true [] = Except.error (ObsError.signalTimeout "start") ∧
    (∃ q, startCall true [⟨"recording", "start"⟩] = Except.ok q) :=
  ⟨(C4_start_requires_init_and_signal false [⟨"recording", "start"⟩]).1 rfl,
    (C4_start_requires_init_and_signal true []).2.1 rfl,
    ((C4_start_requires_init_and_signal true [⟨"recording", "start"⟩]).2.2 rfl).mpr
      ⟨⟨"recording", "start"⟩, [], rfl, rfl, rfl⟩⟩

/-! ## Lemmas about the track allocator -/

theorem processDevices_nil (kind selectedId : String) (t : Nat) :
    processDevices kind selectedId t [] = ([], t) := rfl

theorem processDevices_cons (kind selectedId : String) (t : Nat) (d : AudioDevice)
    (rest : List AudioDevice) :
    processDevices kind selectedId t (d :: rest) =
      ((t, d, ⟨kind, d.id, slotMask t,
          (selectedId == "none") || (selectedId != "all" && d.id != selectedId)⟩)
          :: (processDevices kind selectedId (t + 1) rest).1,
        (processDevices kind selectedId (t + 1) rest).2) := rfl

theorem processDevices_spec (kind selectedId : String) (devices : List AudioDevice) :
    ∀ startTrack : Nat,
      (processDevices kind selectedId startTrack devices).2 = startTrack + devices.length ∧
      ((processDevices kind selectedId startTrack devices).1.map (fun p => p.1)
        = List.range' startTrack devices.length) ∧
      ∀ p ∈ (processDevices kind selectedId startTrack devices).1,
        p.2.2.audioMixers = slotMask p.1 ∧ startTrack ≤ p.1 ∧
          p.1 < startTrack + devices.length := by
  induction devices with
  | nil =>
    intro t
    refine ⟨rfl, rfl, ?_⟩
    intro p hp
    simp [processDevices_nil] at hp
  | cons d rest ih =>
    intro t
    obtain ⟨ihA, ihB, ihC⟩ := ih (t + 1)
    rw [processDevices_cons]
    refine ⟨by rw [ihA]; simp only [List.length_cons]; omega, ?_, ?_⟩
    · show (t :: (processDevices kind selectedId (t + 1) rest).1.map (fun p => p.1))
        = List.range' t (rest.length + 1)
      rw [ihB, List.range'_succ]
    · intro p hp
      rcases List.mem_cons.mp hp with h | h
      · subst h
        exact ⟨rfl, le_refl t, by simp only [List.length_cons]; omega⟩
      · obtain ⟨hmask, hlo, hhi⟩ := ihC p h
        exact ⟨hmask, by omega, by simp only [List.length_cons]; omega⟩

theorem parseBinaryDigits_replicate_one (m : Nat) :
    ∀ acc, (List.replicate m '1').foldl (fun a c => a * 2 + (c.toNat - 48)) acc
      = acc * 2 ^ m + (2 ^ m - 1) := by
  induction m with
  | zero => intro acc; simp
  | succ n ih =>
    intro acc
    rw [List.replicate_succ, List.foldl_cons, ih]
    have h1 : ('1' : Char).toNat - 48 = 1 := rfl
    rw [h1]
    have hp : (1 : Nat) ≤ 2 ^ n := Nat.one_le_two_pow
    have hp2 : (1 : Nat) ≤ 2 ^ (n + 1) := Nat.one_le_two_pow
    zify [hp, hp2]
    ring

theorem onesLiteral_eq (m : Nat) : onesLiteral m = 2 ^ m - 1 := by
  unfold onesLiteral parseBinaryDigits
  rw [parseBinaryDigits_replicate_one]
  simp

theorem slotMask_small (k : Nat) (h2 : 2 ≤ k) (h31 : k < 32) :
    slotMask k = (((1 ||| ((1 : Nat) <<< (k - 1))) : Nat) : Int) := by
  revert h2
  revert h31
  revert k
  decide

theorem setupSources_snd (g : ObsGlobal) (inputs outputs : List AudioDevice)
    (audioInputDeviceId audioOutputDeviceId : String) :
    (setupSources g inputs outputs audioInputDeviceId audioOutputDeviceId).2
      = (processDevices "wasapi_input_capture" audioInputDeviceId 2 inputs).1 ++
        (processDevices "wasapi_output_capture" audioOutputDeviceId
          (processDevices "wasapi_input_capture" audioInputDeviceId 2 inputs).2 outputs).1 := rfl

theorem setupSources_recTracks (g : ObsGlobal) (inputs outputs : List AudioDevice)
    (audioInputDeviceId audioOutputDeviceId : String) :
    (setupSources g inputs outputs audioInputDeviceId audioOutputDeviceId).1.recTracks
      = onesLiteral ((processDevices "wasapi_output_capture" audioOutputDeviceId
          (processDevices "wasapi_input_capture" audioInputDeviceId 2 inputs).2 outputs).2 - 1) :=
  rfl

/-- C2 (amended): with at most 30 devices — so that every allocated track
number stays below 32 and JavaScript's 32-bit shift is exact — the sources
occupy tracks 2..N+1 in enumeration order (inputs first), each with mask
`1 | (1 << (track-1))`, and the final recorded-tracks value is
`2^(N+1) - 1`. -/
theorem C2_track_allocation (g : ObsGlobal) (inputs outputs : List AudioDevice)
    (audioInputDeviceId audioOutputDeviceId : String)
    (hN : inputs.length + outputs.length ≤ 30) :
    ((setupSources g inputs outputs audioInputDeviceId audioOutputDeviceId).2.map (fun p => p.1)
      = List.range' 2 (inputs.length + outputs.length)) ∧
    (∀ p ∈ (setupSources g inputs outputs audioInputDeviceId audioOutputDeviceId).2,
      p.2.2.audioMixers = (((1 ||| ((1 : Nat) <<< (p.1 - 1))) : Nat) : Int)) ∧
    (setupSources g inputs outputs audioInputDeviceId audioOutputDeviceId).1.recTracks
      = 2 ^ (inputs.length + outputs.length + 1) - 1 := by
  obtain ⟨hA1, hB1, hC1⟩ := processDevices_spec "wasapi_input_capture" audioInputDeviceId inputs 2
  obtain ⟨hA2, hB2, hC2⟩ := processDevices_spec "wasapi_output_capture" audioOutputDeviceId outputs
    ((processDevices "wasapi_input_capture" audioInputDeviceId 2 inputs).2)
  refine ⟨?_, ?_, ?_⟩
  · rw [setupSources_snd, List.map_append, hB1, hB2, hA1]
    have := List.range'_append 2 inputs.length outputs.length 1
    simpa [Nat.add_comm] using this
  · intro p hp
    rw [setupSources_snd] at hp
    have hbound : 2 ≤ p.1 ∧ p.1 < 2 + (inputs.length + outputs.length) ∧
        p.2.2.audioMixers = slotMask p.1 := by
      rcases List.mem_append.mp hp with h | h
      · obtain ⟨hmask, hlo, hhi⟩ := hC1 p h
        exact ⟨hlo, by omega, hmask⟩
      · obtain ⟨hmask, hlo, hhi⟩ := hC2 p h
        rw [hA1] at hlo hhi
        exact ⟨by omega, by omega, hmask⟩
    obtain ⟨hlo, hhi, hmask⟩ := hbound
    rw [hmask]
    exact slotMask_small p.1 hlo (by omega)
  · rw [setupSources_recTracks, hA2, hA1, onesLiteral_eq]
    have he : 2 + inputs.length + outputs.length - 1 = inputs.length + outputs.length + 1 := by
      omega
    rw [he]

/-- C2 witness: the spec's example — 2 input devices and 1 output device
occupy tracks 2, 3, 4 and the recorded-tracks value is 15. -/
theorem C2_witness :
    ((setupSources ⟨fun _ => none, fun _ => "", 0⟩ [⟨"in1", "Mic 1"⟩, ⟨"in2", "Mic 2"⟩]
        [⟨"out1", "Speakers"⟩] "all" "all").2.map (fun p => p.1) = [2, 3, 4]) ∧
    (setupSources ⟨fun _ => none, fun _ => "", 0⟩ [⟨"in1", "Mic 1"⟩, ⟨"in2", "Mic 2"⟩]
        [⟨"out1", "Speakers"⟩] "all" "all").1.recTracks = 15 := by
  have h := C2_track_allocation ⟨fun _ => none, fun _ => "", 0⟩
    [⟨"in1", "Mic 1"⟩, ⟨"in2", "Mic 2"⟩] [⟨"out1", "Speakers"⟩] "all" "all" (by decide)
  refine ⟨?_, ?_⟩
  · rw [h.1]; rfl
  · rw [h.2.2]; rfl

/-- C2 counterexample: with 32 enumerated input devices the source on
track 33 gets mask `1` (the JS shift count 32 wraps to 0), not the
claimed `1 | (1 << 32) = 4294967297`. -/
theorem C2_counterexample :
    ∃ p ∈ (setupSources ⟨fun _ => none, fun _ => "", 0⟩
        (List.replicate 32 ⟨"id", "Device"⟩) [] "all" "all").2,
      p.1 = 33 ∧ p.2.2.audioMixers = 1 ∧
      (((1 ||| ((1 : Nat) <<< (33 - 1))) : Nat) : Int) = 4294967297 ∧
      p.2.2.audioMixers ≠ (((1 ||| ((1 : Nat) <<< (33 - 1))) : Nat) : Int) := by decide

theorem toUInt32_natCast (n : Nat) : toUInt32 (n : Int) = n % 2 ^ 32 := by
  unfold toUInt32
  have hl : ((2 : Int) ^ 32) = 4294967296 := by norm_num
  have hr : (2 : Nat) ^ 32 = 4294967296 := by norm_num
  rw [hl, hr]
  omega

theorem jsShl_one_mod (k : Nat) (hk : 1 ≤ k) :
    jsShl 1 ((k : Int) - 1) = jsShl 1 (((k - 1) % 32 : Nat) : Int) := by
  have e1 : ((k : Int) - 1) = (((k - 1 : Nat)) : Int) := by omega
  rw [e1]
  have hcount : toUInt32 (((k - 1 : Nat)) : Int) % 32
      = toUInt32 (((k - 1) % 32 : Nat) : Int) % 32 := by
    rw [toUInt32_natCast, toUInt32_natCast]
    have hr : (2 : Nat) ^ 32 = 4294967296 := by norm_num
    rw [hr]
    omega
  unfold jsShl
  rw [hcount]

/-- C10: the JS mask expression `1 | (1 << (k-1))` evaluates the shift
count modulo 32, so from track 33 on the computed mask repeats that of
track `((k-1) mod 32) + 1` and carries no exclusive bit of its own; in
particular track 33 gets mask 1, and a run over 32 enumerated devices
really assigns mask 1 to the source on track 33. -/
theorem C10_mask_wraps_mod32 (k : Nat) (hk : 33 ≤ k) :
    slotMask k = slotMask ((k - 1) % 32 + 1) ∧
    slotMask 33 = 1 ∧
    ((setupSources ⟨fun _ => none, fun _ => "", 0⟩ (List.replicate 32 ⟨"id", "Device"⟩) []
        "all" "all").2.map (fun p => (p.1, p.2.2.audioMixers))).get? 31 = some (33, 1) := by
  refine ⟨?_, by decide, by decide⟩
  unfold slotMask
  have e2 : ((((k - 1) % 32 + 1 : Nat) : Int) - 1) = (((k - 1) % 32 : Nat) : Int) := by
    push_cast
    ring
  rw [e2]
  exact congrArg (jsOr 1) (jsShl_one_mod k (by omega))

/-- C10 witness: the theorem at track 33. -/
theorem C10_witness :
    slotMask 33 = slotMask ((33 - 1) % 32 + 1) ∧
    slotMask 33 = 1 ∧
    ((setupSources ⟨fun _ => none, fun _ => "", 0⟩ (List.replicate 32 ⟨"id", "Device"⟩) []
        "all" "all").2.map (fun p => (p.1, p.2.2.audioMixers))).get? 31 = some (33, 1) :=
  C10_mask_wraps_mod32 33 (by decide)

/-! ## Lemmas about `clearSources` and the output-track table -/

theorem clearFold_spec (is : List Nat) :
    ∀ (g : ObsGlobal) (i : Nat),
      ((is.foldl clearSlotStep g).slots i = if i ∈ is then none else g.slots i) ∧
      ((is.foldl clearSlotStep g).trackNames i =
        if i ∈ is ∧ (g.slots i).isSome then "" else g.trackNames i) ∧
      (is.foldl clearSlotStep g).recTracks = g.recTracks := by
  induction is with
  | nil => intro g i; simp
  | cons j rest ih =>
    intro g i
    rw [List.foldl_cons]
    obtain ⟨ihA, ihB, ihC⟩ := ih (clearSlotStep g j) i
    have hslots : (clearSlotStep g j).slots i = if i = j then none else g.slots i := by
      unfold clearSlotStep
      cases hgj : g.slots j with
      | some v => simp [setSlot]
      | none =>
        by_cases hij : i = j
        · subst hij; simp [hgj]
        · simp [hij]
    have hnames : (clearSlotStep g j).trackNames i =
        if i = j ∧ (g.slots j).isSome then "" else g.trackNames i := by
      unfold clearSlotStep
      cases hgj : g.slots j with
      | some v =>
        by_cases hij : i = j
        · subst hij; simp [setName, hgj]
        · simp [setName, hij, hgj]
      | none => simp [hgj]
    have hrec : (clearSlotStep g j).recTracks = g.recTracks := by
      unfold clearSlotStep
      cases hgj : g.slots j <;> rfl
    refine ⟨?_, ?_, by rw [ihC, hrec]⟩
    · rw [ihA, hslots]
      by_cases hin : i ∈ rest
      · simp [hin, List.mem_cons]
      · by_cases hij : i = j
        · simp [hin, hij, List.mem_cons]
        · simp [hin, hij, List.mem_cons]
    · rw [ihB, hnames, hslots]
      by_cases hij : i = j
      · subst hij
        by_cases hsi : (g.slots i).isSome
        · simp [hsi, List.mem_cons]
        · simp [hsi, List.mem_cons]
      · by_cases hin : i ∈ rest
        · simp [hij, hin, List.mem_cons]
        · simp [hij, hin, List.mem_cons]

theorem clearSources_slots (g : ObsGlobal) (i : Nat) :
    (clearSources g).slots i = if 1 ≤ i ∧ i ≤ 63 then none else g.slots i := by
  have hA := (clearFold_spec (List.range' 1 63) g i).1
  have hmem : (i ∈ List.range' 1 63) ↔ (1 ≤ i ∧ i ≤ 63) := by
    rw [List.mem_range'_1]; omega
  show ((List.range' 1 63).foldl clearSlotStep g).slots i = _
  rw [hA]
  by_cases hc : 1 ≤ i ∧ i ≤ 63
  · rw [if_pos (hmem.mpr hc), if_pos hc]
  · rw [if_neg (fun hh => hc (hmem.mp hh)), if_neg hc]

theorem clearSources_trackNames (g : ObsGlobal) (i : Nat) :
    (clearSources g).trackNames i =
      if (1 ≤ i ∧ i ≤ 63) ∧ (g.slots i).isSome then "" else g.trackNames i := by
  have hB := (clearFold_spec (List.range' 1 63) g i).2.1
  have hmem : (i ∈ List.range' 1 63) ↔ (1 ≤ i ∧ i ≤ 63) := by
    rw [List.mem_range'_1]; omega
  show ((List.range' 1 63).foldl clearSlotStep g).trackNames i = _
  rw [hB]
  by_cases hc : (1 ≤ i ∧ i ≤ 63) ∧ (g.slots i).isSome
  · rw [if_pos ⟨hmem.mpr hc.1, hc.2⟩, if_pos hc]
  · rw [if_neg (fun hh => hc ⟨hmem.mp hh.1, hh.2⟩), if_neg hc]

theorem clearSources_recTracks (g : ObsGlobal) : (clearSources g).recTracks = 0 := rfl

theorem audioFold_slots (assigns : List (Nat × AudioDevice × AudioSource)) :
    ∀ (g : ObsGlobal) (i : Nat),
      (assigns.foldl audioRegisterStep g).slots i
        = if i ∈ assigns.map (fun p => p.1) then some SlotContent.audio else g.slots i := by
  induction assigns with
  | nil => intro g i; simp
  | cons a rest ih =>
    intro g i
    rw [List.foldl_cons, ih]
    by_cases hin : i ∈ rest.map (fun p => p.1)
    · simp [hin, List.mem_cons]
    · by_cases hia : i = a.1
      · simp [audioRegisterStep, setSlot, hin, hia, List.mem_cons]
      · simp [audioRegisterStep, setSlot, hin, hia, List.mem_cons]

theorem setupSources_fst_slots (g : ObsGlobal) (inputs outputs : List AudioDevice)
    (audioInputDeviceId audioOutputDeviceId : String) (i : Nat) :
    (setupSources g inputs outputs audioInputDeviceId audioOutputDeviceId).1.slots i =
      if i ∈ (setupSources g inputs outputs audioInputDeviceId audioOutputDeviceId).2.map
          (fun p => p.1) then some SlotContent.audio
      else if i = 1 then some SlotContent.scene
      else (clearSources g).slots i := by
  rw [setupSources_snd]
  have h := audioFold_slots
    ((processDevices "wasapi_input_capture" audioInputDeviceId 2 inputs).1 ++
      (processDevices "wasapi_output_capture" audioOutputDeviceId
        (processDevices "wasapi_input_capture" audioInputDeviceId 2 inputs).2 outputs).1)
    { clearSources g with
      slots := setSlot (clearSources g).slots 1 (some SlotContent.scene)
      trackNames := setName (clearSources g).trackNames 1 "Mixed: all sources" } i
  show (((processDevices "wasapi_input_capture" audioInputDeviceId 2 inputs).1 ++
      (processDevices "wasapi_output_capture" audioOutputDeviceId
        (processDevices "wasapi_input_capture" audioInputDeviceId 2 inputs).2 outputs).1).foldl
      audioRegisterStep
      { clearSources g with
        slots := setSlot (clearSources g).slots 1 (some SlotContent.scene)
        trackNames := setName (clearSources g).trackNames 1 "Mixed: all sources" }).slots i = _
  rw [h]
  by_cases hin : i ∈ ((processDevices "wasapi_input_capture" audioInputDeviceId 2 inputs).1 ++
      (processDevices "wasapi_output_capture" audioOutputDeviceId
        (processDevices "wasapi_input_capture" audioInputDeviceId 2 inputs).2 outputs).1).map
      (fun p => p.1)
  · rw [if_pos hin, if_pos hin]
  · rw [if_neg hin, if_neg hin]
    show setSlot (clearSources g).slots 1 (some SlotContent.scene) i = _
    unfold setSlot
    by_cases hi1 : i = 1
    · simp [hi1]
    · simp [hi1]

theorem setupSources_tracks (g : ObsGlobal) (inputs outputs : List AudioDevice)
    (audioInputDeviceId audioOutputDeviceId : String) :
    (setupSources g inputs outputs audioInputDeviceId audioOutputDeviceId).2.map (fun p => p.1)
      = List.range' 2 (inputs.length + outputs.length) := by
  obtain ⟨hA1, hB1, _⟩ := processDevices_spec "wasapi_input_capture" audioInputDeviceId inputs 2
  obtain ⟨hA2, hB2, _⟩ := processDevices_spec "wasapi_output_capture" audioOutputDeviceId outputs
    ((processDevices "wasapi_input_capture" audioInputDeviceId 2 inputs).2)
  rw [setupSources_snd, List.map_append, hB1, hB2, hA1]
  have := List.range'_append 2 inputs.length outputs.length 1
  simpa [Nat.add_comm] using this

theorem countP_interval : ∀ n < 63,
    (List.range' 1 64).countP (fun i => decide (2 ≤ i ∧ i < 2 + n)) = n := by decide

theorem setupSources_countAudio (g : ObsGlobal) (inputs outputs : List AudioDevice)
    (audioInputDeviceId audioOutputDeviceId : String) (h64 : g.slots 64 = none)
    (hn : inputs.length + outputs.length ≤ 62) :
    countAudioSources (setupSources g inputs outputs audioInputDeviceId audioOutputDeviceId).1.slots
      = inputs.length + outputs.length := by
  have htracks := setupSources_tracks g inputs outputs audioInputDeviceId audioOutputDeviceId
  unfold countAudioSources
  rw [List.countP_map]
  have hpoint : ∀ i ∈ List.range' 1 64,
      (((fun e => e == some SlotContent.audio) ∘
        (setupSources g inputs outputs audioInputDeviceId audioOutputDeviceId).1.slots) i) ↔
      ((fun i => decide (2 ≤ i ∧ i < 2 + (inputs.length + outputs.length))) i) := by
    intro i hi
    rw [List.mem_range'_1] at hi
    show ((setupSources g inputs outputs audioInputDeviceId audioOutputDeviceId).1.slots i
      == some SlotContent.audio) = true ↔ _
    rw [setupSources_fst_slots, htracks]
    by_cases hmem : i ∈ List.range' 2 (inputs.length + outputs.length)
    · rw [if_pos hmem]
      rw [List.mem_range'_1] at hmem
      simp only [beq_self_eq_true, true_iff, decide_eq_true_eq]
      exact hmem
    · rw [if_neg hmem]
      rw [List.mem_range'_1] at hmem
      by_cases hi1 : i = 1
      · rw [if_pos hi1]
        simp only [decide_eq_true_eq]
        constructor
        · intro hcc; exact absurd hcc (by decide)
        · intro hcc; omega
      · rw [if_neg hi1, clearSources_slots]
        by_cases h63 : 1 ≤ i ∧ i ≤ 63
        · rw [if_pos h63]
          simp only [decide_eq_true_eq]
          constructor
          · intro hcc; exact absurd hcc (by decide)
          · intro hcc; exact absurd hcc hmem
        · rw [if_neg h63]
          have hi64 : i = 64 := by omega
          rw [hi64, h64]
          simp only [decide_eq_true_eq]
          constructor
          · intro hcc; exact absurd hcc (by decide)
          · intro hcc; omega
  rw [List.countP_congr hpoint]
  exact countP_interval (inputs.length + outputs.length) (by omega)

/-- C6 (amended): `clearSources` visits output slots 1 through 63 — not
slot 64 (the loop is `index < 64`) — and for each visited slot holding a
source it clears the slot and its track name, then zeroes the
recorded-tracks setting; consequently a `setupSources` rebuild over at
most 62 devices, from a table with slot 64 free, leaves exactly the
configured number of audio sources registered and keeps slot 64 free, so
repeated rebuilds do not leak. -/
theorem C6_clearSources_covers_63 (g : ObsGlobal) (inputs outputs : List AudioDevice)
    (audioInputDeviceId audioOutputDeviceId : String) (h64 : g.slots 64 = none)
    (hn : inputs.length + outputs.length ≤ 62) :
    (∀ i, 1 ≤ i → i ≤ 63 → (clearSources g).slots i = none) ∧
    (∀ i, 1 ≤ i → i ≤ 63 → (g.slots i).isSome = true → (clearSources g).trackNames i = "") ∧
    (clearSources g).recTracks = 0 ∧
    countAudioSources (setupSources g inputs outputs audioInputDeviceId
      audioOutputDeviceId).1.slots = inputs.length + outputs.length ∧
    (setupSources g inputs outputs audioInputDeviceId audioOutputDeviceId).1.slots 64 = none := by
  refine ⟨?_, ?_, clearSources_recTracks g,
    setupSources_countAudio g inputs outputs audioInputDeviceId audioOutputDeviceId h64 hn, ?_⟩
  · intro i h1 h2
    rw [clearSources_slots, if_pos ⟨h1, h2⟩]
  · intro i h1 h2 hs
    rw [clearSources_trackNames, if_pos ⟨⟨h1, h2⟩, hs⟩]
  · rw [setupSources_fst_slots, setupSources_tracks]
    have hnotmem : (64 : Nat) ∉ List.range' 2 (inputs.length + outputs.length) := by
      rw [List.mem_range'_1]
      omega
    rw [if_neg hnotmem, if_neg (by omega : ¬(64 : Nat) = 1), clearSources_slots,
      if_neg (by omega : ¬(1 ≤ (64 : Nat) ∧ (64 : Nat) ≤ 63))]
    exact h64

/-- C6 witness: one input device on a fresh table — one audio source
registered, slot 64 untouched. -/
theorem C6_witness :
    countAudioSources (setupSources ⟨fun _ => none, fun _ => "", 0⟩ [⟨"in1", "Mic 1"⟩] []
      "all" "all").1.slots = 1 ∧
    (setupSources ⟨fun _ => none, fun _ => "", 0⟩ [⟨"in1", "Mic 1"⟩] [] "all" "all").1.slots 64
      = none := by
  have h := C6_clearSources_covers_63 ⟨fun _ => none, fun _ => "", 0⟩ [⟨"in1", "Mic 1"⟩] []
    "all" "all" rfl (by decide)
  exact ⟨h.2.2.2.1, h.2.2.2.2⟩

/-- C6 counterexample: the loop `for (index = 1; index < 64; index++)`
never visits slot 64, so a source registered there survives
`clearSources`, and a rebuild configured with zero audio devices leaves
one audio source registered across the 64 slots. -/
theorem C6_counterexample :
    (64 ∉ List.range' 1 63) ∧
    (clearSources ⟨fun i => if i = 64 then some SlotContent.audio else none,
      fun _ => "", 0⟩).slots 64 = some SlotContent.audio ∧
    countAudioSources (setupSources ⟨fun i => if i = 64 then some SlotContent.audio else none,
      fun _ => "", 0⟩ [] [] "all" "all").1.slots = 1 := by
  refine ⟨by decide, ?_, ?_⟩
  · rw [clearSources_slots, if_neg (by omega : ¬(1 ≤ (64 : Nat) ∧ (64 : Nat) ≤ 63))]
    rfl
  · rfl

/-! ## Lemmas about the settings bridge -/

theorem foldl_params_id (parameter : String) (params : List SettingsParameter)
    (h : ∀ p ∈ params, p.name ≠ parameter) :
    ∀ acc : JsVal,
      params.foldl (fun a param => if param.name = parameter then param.currentValue else a) acc
        = acc := by
  induction params with
  | nil => intro acc; rfl
  | cons p rest ih =>
    intro acc
    rw [List.foldl_cons, if_neg (h p (List.mem_cons_self _ _))]
    exact ih (fun q hq => h q (List.mem_cons_of_mem _ hq)) acc

theorem map_id_of_eq {α : Type} (l : List α) (f : α → α) (h : ∀ a ∈ l, f a = a) :
    l.map f = l := by
  induction l with
  | nil => rfl
  | cons x xs ih =>
    rw [List.map_cons, h x (List.mem_cons_self _ _),
      ih (fun a ha => h a (List.mem_cons_of_mem _ ha))]

theorem jsLooseEq_undef_iff (v : JsVal) :
    jsLooseEq v JsVal.undef = true ↔ v = JsVal.undef ∨ v = JsVal.null := by
  cases v <;> simp [jsLooseEq]

/-- C7 (amended): when the parameter occurs in no subcategory,
`setSetting` modifies no parameter and raises no error, but — because
`oldValue` stays `undefined` and the guard is the loose inequality
`value != oldValue` — it still invokes the settings-save operation
(writing back the unchanged container) for every value that is not
`undefined`/`null`; only those two values skip the save. -/
theorem C7_setSetting_missing_saves (settings : List SettingsSubCategory)
    (parameter : String) (value : JsVal)
    (hmiss : ∀ sub ∈ settings, ∀ p ∈ sub.parameters, p.name ≠ parameter) :
    (setSetting settings parameter value).settings = settings ∧
    (setSetting settings parameter value).saved = !(jsLooseEq value JsVal.undef) ∧
    ((setSetting settings parameter value).saved = false ↔
      value = JsVal.undef ∨ value = JsVal.null) := by
  have hold : settings.foldl (fun acc subCategory =>
      subCategory.parameters.foldl (fun a param =>
        if param.name = parameter then param.currentValue else a) acc) JsVal.undef
      = JsVal.undef := by
    have hgen : ∀ acc : JsVal, settings.foldl (fun acc subCategory =>
        subCategory.parameters.foldl (fun a param =>
          if param.name = parameter then param.currentValue else a) acc) acc = acc := by
      induction settings with
      | nil => intro acc; rfl
      | cons sub rest ih =>
        intro acc
        rw [List.foldl_cons,
          foldl_params_id parameter sub.parameters (hmiss sub (List.mem_cons_self _ _))]
        exact ih (fun s hs => hmiss s (List.mem_cons_of_mem _ hs)) acc
    exact hgen JsVal.undef
  have hsettings : (setSetting settings parameter value).settings = settings := by
    show settings.map (fun subCategory =>
      { subCategory with parameters := subCategory.parameters.map (fun param =>
          if param.name = parameter then { param with currentValue := value } else param) })
      = settings
    apply map_id_of_eq
    intro sub hsub
    have : sub.parameters.map (fun param =>
        if param.name = parameter then { param with currentValue := value } else param)
        = sub.parameters := by
      apply map_id_of_eq
      intro p hp
      rw [if_neg (hmiss sub hsub p hp)]
    rw [this]
  have hsaved : (setSetting settings parameter value).saved
      = !(jsLooseEq value JsVal.undef) := by
    have hrfl : (setSetting settings parameter value).saved
        = (!(jsLooseEq value (settings.foldl (fun acc subCategory =>
          subCategory.parameters.foldl (fun a param =>
            if param.name = parameter then param.currentValue else a) acc) JsVal.undef))) := rfl
    rw [hrfl, hold]
  refine ⟨hsettings, hsaved, ?_⟩
  rw [hsaved]
  rw [← jsLooseEq_undef_iff]
  cases jsLooseEq value JsVal.undef <;> simp

/-- C7 witness: writing `mp4` to the absent parameter `RecFormat` leaves
the tree unchanged but does invoke the save. -/
theorem C7_witness :
    (setSetting [⟨"Untitled", [⟨"Mode", JsVal.str "Simple", []⟩]⟩] "RecFormat"
        (JsVal.str "mp4")).settings = [⟨"Untitled", [⟨"Mode", JsVal.str "Simple", []⟩]⟩] ∧
    (setSetting [⟨"Untitled", [⟨"Mode", JsVal.str "Simple", []⟩]⟩] "RecFormat"
        (JsVal.str "mp4")).saved = true := by
  have h := C7_setSetting_missing_saves [⟨"Untitled", [⟨"Mode", JsVal.str "Simple", []⟩]⟩]
    "RecFormat" (JsVal.str "mp4") (by decide)
  exact ⟨h.1, by rw [h.2.1]; rfl⟩

/-- C7 counterexample: with parameter `RecFormat` absent from every
subcategory, `setSetting` with the ordinary value `"mp4"` does invoke
the persistence save (`'mp4' != undefined` is true), contradicting the
claimed silent no-op. -/
theorem C7_counterexample :
    (([⟨"Untitled", [⟨"Mode", JsVal.str "Simple", []⟩]⟩] : List SettingsSubCategory).all
      (fun sub => sub.parameters.all (fun p => p.name != "RecFormat"))) = true ∧
    (setSetting [⟨"Untitled", [⟨"Mode", JsVal.str "Simple", []⟩]⟩] "RecFormat"
      (JsVal.str "mp4")).saved = true := by decide

/-- C8 (amended): the module-level `getAvailableValues` returns JS
`undefined` (`none`) — not an empty sequence — whenever the category
data, the subcategory, or the parameter is missing, and never throws;
the class variant (`part_000`) is the one that returns `[]` in those
cases, and on a hit both return the ordered permitted values. -/
theorem C8_getAvailableValues_missing (categoryData : Option (List SettingsSubCategory))
    (subcategory parameter : String) :
    ((getAvailableValues categoryData subcategory parameter).getD []
      = getAvailableValuesClass categoryData subcategory parameter) ∧
    (getAvailableValues categoryData subcategory parameter = none ↔
      categoryData = none ∨
      ∃ cs, categoryData = some cs ∧
        (cs.find? (fun sub => sub.nameSubCategory == subcategory) = none ∨
         ∃ sub, cs.find? (fun su => su.nameSubCategory == subcategory) = some sub ∧
           sub.parameters.find? (fun pa => pa.name == parameter) = none)) ∧
    (∀ cs sub par, categoryData = some cs →
      cs.find? (fun su => su.nameSubCategory == subcategory) = some sub →
      sub.parameters.find? (fun pa => pa.name == parameter) = some par →
      getAvailableValues categoryData subcategory parameter
        = some (par.values.map firstPropertyValue)) := by
  cases categoryData with
  | none =>
    refine ⟨rfl, by simp [getAvailableValues], ?_⟩
    intro cs sub par hcs
    exact absurd hcs (by simp)
  | some cs =>
    cases hf : cs.find? (fun sub => sub.nameSubCategory == subcategory) with
    | none =>
      refine ⟨?_, ?_, ?_⟩
      · simp [getAvailableValues, getAvailableValuesClass, hf]
      · constructor
        · intro _; exact Or.inr ⟨cs, rfl, Or.inl hf⟩
        · intro _; simp [getAvailableValues, hf]
      · intro cs' sub par hcs hfind hpar
        injection hcs with hcs'
        subst hcs'
        rw [hf] at hfind
        exact absurd hfind (by simp)
    | some sub =>
      cases hp : sub.parameters.find? (fun pa => pa.name == parameter) with
      | none =>
        refine ⟨?_, ?_, ?_⟩
        · simp [getAvailableValues, getAvailableValuesClass, hf, hp]
        · constructor
          · intro _; exact Or.inr ⟨cs, rfl, Or.inr ⟨sub, hf, hp⟩⟩
          · intro _; simp [getAvailableValues, hf, hp]
        · intro cs' sub' par hcs hfind hpar
          injection hcs with hcs'
          subst hcs'
          rw [hf] at hfind
          injection hfind with hsub
          subst hsub
          rw [hp] at hpar
          exact absurd hpar (by simp)
      | some par =>
        refine ⟨?_, ?_, ?_⟩
        · simp [getAvailableValues, getAvailableValuesClass, hf, hp]
        · constructor
          · intro hcon
            rw [show getAvailableValues (some cs) subcategory parameter
              = some (par.values.map firstPropertyValue) by
                simp [getAvailableValues, hf, hp]] at hcon
            exact absurd hcon (by simp)
          · rintro (hcon | ⟨cs', hcs, hcon | ⟨sub', hfind, hpar⟩⟩)
            · exact absurd hcon (by simp)
            · injection hcs with hcs'
              subst hcs'
              rw [hf] at hcon
              exact absurd hcon (by simp)
            · injection hcs with hcs'
              subst hcs'
              rw [hf] at hfind
              injection hfind with hsub
              subst hsub
              rw [hp] at hpar
              exact absurd hpar (by simp)
        · intro cs' sub' par' hcs hfind hpar
          injection hcs with hcs'
          subst hcs'
          rw [hf] at hfind
          injection hfind with hsub
          subst hsub
          rw [hp] at hpar
          injection hpar with hpar'
          subst hpar'
          simp [getAvailableValues, hf, hp]

/-- C8 witness: a present parameter returns its ordered values through
the theorem's hit case; a missing category gives the same result through
both variants' defaulting. -/
theorem C8_witness :
    getAvailableValues (some [⟨"Untitled", [⟨"Base", JsVal.str "1920x1080",
        [[("v", JsVal.str "1920x1080")], [("v", JsVal.str "1280x720")]]⟩]⟩]) "Untitled" "Base"
      = some [JsVal.str "1920x1080", JsVal.str "1280x720"] ∧
    (getAvailableValues none "Untitled" "Base").getD []
      = getAvailableValuesClass none "Untitled" "Base" := by
  refine ⟨?_, (C8_getAvailableValues_missing none "Untitled" "Base").1⟩
  have h := (C8_getAvailableValues_missing (some [⟨"Untitled", [⟨"Base", JsVal.str "1920x1080",
    [[("v", JsVal.str "1920x1080")], [("v", JsVal.str "1280x720")]]⟩]⟩]) "Untitled" "Base").2.2
  exact h [⟨"Untitled", [⟨"Base", JsVal.str "1920x1080",
      [[("v", JsVal.str "1920x1080")], [("v", JsVal.str "1280x720")]]⟩]⟩]
    ⟨"Untitled", [⟨"Base", JsVal.str "1920x1080",
      [[("v", JsVal.str "1920x1080")], [("v", JsVal.str "1280x720")]]⟩]⟩
    ⟨"Base", JsVal.str "1920x1080",
      [[("v", JsVal.str "1920x1080")], [("v", JsVal.str "1280x720")]]⟩
    rfl (by decide) (by decide)

/-- C8 counterexample: the module-level `getAvailableValues` yields JS
`undefined` (`none`) for a missing category and for a missing
subcategory — not the claimed empty sequence. -/
theorem C8_counterexample :
    getAvailableValues none "Untitled" "Base" = none ∧
    getAvailableValues none "Untitled" "Base" ≠ some ([] : List JsVal) ∧
    getAvailableValues (some [⟨"Untitled", []⟩]) "Recording" "RecEncoder" = none := by decide
